import Mathlib

/-!
Verification of the sequencing and audio-assembly engine of
src/music_generator.py (Hibiki repository).

The Python source is shallowly embedded as follows.

* Python floats (valence/arousal values, time proportions, volume
  multipliers) are modelled exactly by rationals.
* A pydub AudioSegment is modelled by its length in milliseconds (a
  natural number).  Every property verified here concerns buffer
  lengths, the clip-assignment bookkeeping, or definedness of the
  arithmetic, never individual sample values, so this is the natural
  granularity.
* A Python dict is modelled by its insertion-ordered association list;
  a Python set of strings by a list of strings with membership.
* Fallible or diverging steps are made explicit: the crossfade join
  (pydub AudioSegment.append) returns an Option whose none case is the
  ValueError it raises when the requested crossfade exceeds either
  operand, and the self-doubling while loop of the source is wrapped so
  that its genuinely nonterminating case (an empty clip with a positive
  target duration) surfaces as an explicit marker instead of being
  silently altered.
-/

/-- EmotionPoint is a valence/arousal pair, as read from the emotion
dictionaries of the source.  Python floats are modelled exactly by
rationals. -/
structure EmotionPoint where
  valence : ℚ
  arousal : ℚ
deriving DecidableEq, Repr

/-- Squared Euclidean distance between two emotion points.  The source
(music_generator.py, lines 25-28) computes np.sqrt of this value and
compares the square roots; the square root is strictly monotone on
nonnegative reals, so the running-minimum comparisons below are carried
out on the squares, which denote exactly the same selection. -/
def dist2 (a b : EmotionPoint) : ℚ :=
  (a.valence - b.valence) ^ 2 + (a.arousal - b.arousal) ^ 2

/-- Loop body of find_closest_music (lines 20-31).  The accumulator is
the pair (min_distance, closest_music); the initial state
(min_distance = inf, closest_music = None) is the none accumulator.
An entry already in used_music is skipped; otherwise its distance is
compared against the running minimum with a strict less-than, so on an
exact tie the earlier entry is kept. -/
def findClosestAux (t : EmotionPoint) (used : List String) :
    List (String × EmotionPoint) → Option (ℚ × String) → Option (ℚ × String)
  | [], acc => acc
  | (f, e) :: rest, acc =>
      if f ∈ used then findClosestAux t used rest acc
      else
        match acc with
        | none => findClosestAux t used rest (some (dist2 t e, f))
        | some a =>
            if dist2 t e < a.1 then findClosestAux t used rest (some (dist2 t e, f))
            else findClosestAux t used rest acc

/-- find_closest_music (lines 12-33): returns the id of the non-excluded
library entry with minimal emotional distance to the target, none when
the library holds no non-excluded entry.  The function is total: the
source raises no exception on an empty result, it simply returns None. -/
def findClosestMusic (t : EmotionPoint) (lib : List (String × EmotionPoint))
    (used : List String) : Option String :=
  Option.map Prod.snd (findClosestAux t used lib none)

/-- Python int() applied to a rational value: truncation toward zero.
This is what line 61 of the source applies to
(end_proportion - start_proportion) * total_duration. -/
def pyInt (q : ℚ) : ℤ := if 0 ≤ q then ⌊q⌋ else ⌈q⌉

/-- Python slicing buf[:d] at the length level: a nonnegative bound keeps
at most d leading milliseconds, a negative bound drops -d trailing
milliseconds, and the result is clamped to the available length. -/
def pySlice (len : ℕ) (d : ℤ) : ℕ :=
  (min (len : ℤ) (if 0 ≤ d then d else (len : ℤ) + d)).toNat

/-- ParagraphSpec: one entry of text_emotions, with its emotion point and
its start/end time proportions. -/
structure ParagraphSpec where
  emotions : EmotionPoint
  pStart : ℚ
  pEnd : ℚ
deriving DecidableEq, Repr

/-- Planned duration of the paragraph at 0-based index i (lines 59-65):
duration = int((end - start) * total_duration), plus the crossfade
compensation for every paragraph after the first. -/
def plannedDuration (p : ParagraphSpec) (i : ℕ) (total cf : ℕ) : ℤ :=
  pyInt ((p.pEnd - p.pStart) * (total : ℚ)) + (if 0 < i then (cf : ℤ) else 0)

/-- Doubling loop of lines 83-84 at the length level
(while len(seg) < duration: seg = seg + seg).  Each iteration strictly
increases a positive length, so the recursion terminates on every input
the source loop terminates on; the one case where the source loop runs
forever (length 0 with a positive target, on which this equation would
just return 0) is intercepted by prepareSegment before this function is
consulted. -/
def loopExtend (len : ℕ) (target : ℤ) : ℕ :=
  if 0 < len ∧ (len : ℤ) < target then loopExtend (len + len) target else len
termination_by (target - len).toNat
decreasing_by omega

/-- Per-clip preparation of lines 82-87: loop-extend the loaded clip to at
least the planned duration, then trim with seg[:duration].  The none
result marks the input on which the source while loop never terminates
(an empty clip buffer and a positive planned duration). -/
def prepareSegment (clipLen : ℕ) (duration : ℤ) : Option ℕ :=
  if clipLen = 0 ∧ 0 < duration then none
  else some (pySlice (loopExtend clipLen duration) duration)

/-- SegmentAssignment: one produced segment, recording the chosen clip id,
the planned duration of its paragraph, and the length of the prepared
(loop-extended and trimmed) buffer appended to music_segments. -/
structure SegmentAssignment where
  id : String
  duration : ℤ
  segLen : ℕ
deriving DecidableEq, Repr

/-- Paragraph loop of create_music_sequence (lines 57-90).  The loader
abstracts the music_files dict of lines 44-48: it yields the length of
the preloaded buffer for the ids whose file exists and none otherwise.
For each paragraph the closest unused clip is matched; if the match is
None or its audio was not loaded, the paragraph is skipped (line 72-73)
before used_music is extended (line 76); otherwise the id is marked used
and the prepared segment is appended.  The result carries the assignment
list in paragraph order together with the final used_music contents
(most recently added first); the none result propagates the marker of a
nonterminating preparation. -/
def processParagraphs (lib : List (String × EmotionPoint)) (loader : String → Option ℕ)
    (total cf : ℕ) :
    List ParagraphSpec → ℕ → List String → Option (List SegmentAssignment × List String)
  | [], _, used => some ([], used)
  | p :: rest, i, used =>
      match findClosestMusic p.emotions lib used with
      | none => processParagraphs lib loader total cf rest (i + 1) used
      | some m =>
          match loader m with
          | none => processParagraphs lib loader total cf rest (i + 1) used
          | some clipLen =>
              match prepareSegment clipLen (plannedDuration p i total cf) with
              | none => none
              | some segLen =>
                  Option.map
                    (fun r => (SegmentAssignment.mk m (plannedDuration p i total cf) segLen :: r.1, r.2))
                    (processParagraphs lib loader total cf rest (i + 1) (m :: used))

/-- pydub AudioSegment.append at the length level (line 101): with a zero
crossfade the buffers are concatenated plainly; otherwise pydub raises
ValueError (modelled by none) when the crossfade exceeds the length of
either operand, and else the joined length is a + b - cf. -/
def crossfadeAppend (a b cf : ℕ) : Option ℕ :=
  if cf = 0 then some (a + b)
  else if (cf : ℤ) > (a : ℤ) then none
  else if (cf : ℤ) > (b : ℤ) then none
  else some (a + b - cf)

/-- Left fold of lines 96-101: start from the first prepared segment and
crossfade-append each subsequent one. -/
def joinSegments (cf : ℕ) : ℕ → List ℕ → Option ℕ
  | acc, [] => some acc
  | acc, s :: rest =>
      match crossfadeAppend acc s cf with
      | none => none
      | some acc2 => joinSegments cf acc2 rest

/-- Length normalization of lines 108-115: trim with buf[:total] when too
long, pad with silence when too short. -/
def normalizeLength (len total : ℕ) : ℕ :=
  if total < len then pySlice len (total : ℤ)
  else if len < total then len + (total - len)
  else len

/-- fade_in(fade).fade_out(fade) of line 118: pydub fades rescale sample
amplitudes in place and return a buffer of unchanged length. -/
def fadeInOut (_fade len : ℕ) : ℕ := len

/-- Assembly step of lines 93-122: an empty segment list yields
AudioSegment.silent(total_duration); otherwise the segments are
crossfade-joined (none propagating the ValueError of pydub append),
normalized to the target length, and fade-shaped. -/
def assembleSegments (segs : List ℕ) (total cf fade : ℕ) : Option ℕ :=
  match segs with
  | [] => some total
  | s :: rest =>
      match joinSegments cf s rest with
      | none => none
      | some len => some (fadeInOut fade (normalizeLength len total))

/-- Outcome of one run of create_music_sequence: a returned buffer of the
given length, an uncaught exception, or nontermination. -/
inductive SeqResult where
  | ok : ℕ → SeqResult
  | exn : SeqResult
  | diverge : SeqResult
deriving DecidableEq, Repr

/-- create_music_sequence (lines 35-122), end to end: run the paragraph
loop, then assemble the produced segments. -/
def createMusicSequence (paras : List ParagraphSpec) (lib : List (String × EmotionPoint))
    (loader : String → Option ℕ) (total cf fade : ℕ) : SeqResult :=
  match processParagraphs lib loader total cf paras 0 [] with
  | none => SeqResult.diverge
  | some (assigns, _) =>
      match assembleSegments (assigns.map SegmentAssignment.segLen) total cf fade with
      | none => SeqResult.exn
      | some n => SeqResult.ok n

/-- Classification of the float produced by 20 * np.log10(v) in lines
171-172 of the source.  On v > 0 the value is finite, and since
20*log10 is injective there the class records the multiplier itself;
np.log10(0.0) is negative infinity and np.log10 of a negative float is
NaN, neither of which is a finite decibel gain. -/
inductive VolumeGain where
  | db : ℚ → VolumeGain
  | negInf : VolumeGain
  | nan : VolumeGain
deriving DecidableEq, Repr

/-- Volume-multiplier-to-decibel conversion of main (lines 171-172):
20 * np.log10(v), computed unconditionally for whatever multiplier the
caller passed. -/
def volumeToDb (v : ℚ) : VolumeGain :=
  if 0 < v then VolumeGain.db v else if v = 0 then VolumeGain.negInf else VolumeGain.nan

/-- Gain conversions main performs on its two volume parameters
(ambient_db and music_db of lines 171-172). -/
def mainVolumeGains (ambientVolume musicVolume : ℚ) : VolumeGain × VolumeGain :=
  (volumeToDb ambientVolume, volumeToDb musicVolume)

/-- Modelled from the spec, for comparison with the code: section 4.2 of
the design states raw_duration = round((proportion_end -
proportion_start) * total_duration_ms). -/
def rawDurationSpec (p : ParagraphSpec) (total : ℕ) : ℤ :=
  round ((p.pEnd - p.pStart) * (total : ℚ))

/-! ## Basic equations and length lemmas -/

theorem processParagraphs_nil (lib : List (String × EmotionPoint)) (loader : String → Option ℕ)
    (total cf i : ℕ) (used : List String) :
    processParagraphs lib loader total cf [] i used = some ([], used) := rfl

theorem processParagraphs_skip_none (lib : List (String × EmotionPoint))
    (loader : String → Option ℕ) (total cf : ℕ) (p : ParagraphSpec) (rest : List ParagraphSpec)
    (i : ℕ) (used : List String) (hm : findClosestMusic p.emotions lib used = none) :
    processParagraphs lib loader total cf (p :: rest) i used =
      processParagraphs lib loader total cf rest (i + 1) used := by
  simp only [processParagraphs, hm]

theorem processParagraphs_skip_unavail (lib : List (String × EmotionPoint))
    (loader : String → Option ℕ) (total cf : ℕ) (p : ParagraphSpec) (rest : List ParagraphSpec)
    (i : ℕ) (used : List String) (m : String)
    (hm : findClosestMusic p.emotions lib used = some m) (hl : loader m = none) :
    processParagraphs lib loader total cf (p :: rest) i used =
      processParagraphs lib loader total cf rest (i + 1) used := by
  simp only [processParagraphs, hm, hl]

theorem processParagraphs_assign (lib : List (String × EmotionPoint))
    (loader : String → Option ℕ) (total cf : ℕ) (p : ParagraphSpec) (rest : List ParagraphSpec)
    (i : ℕ) (used : List String) (m : String) (clipLen segLen : ℕ)
    (hm : findClosestMusic p.emotions lib used = some m) (hl : loader m = some clipLen)
    (hp : prepareSegment clipLen (plannedDuration p i total cf) = some segLen) :
    processParagraphs lib loader total cf (p :: rest) i used =
      Option.map
        (fun r => (SegmentAssignment.mk m (plannedDuration p i total cf) segLen :: r.1, r.2))
        (processParagraphs lib loader total cf rest (i + 1) (m :: used)) := by
  simp only [processParagraphs, hm, hl, hp]

theorem processParagraphs_diverge (lib : List (String × EmotionPoint))
    (loader : String → Option ℕ) (total cf : ℕ) (p : ParagraphSpec) (rest : List ParagraphSpec)
    (i : ℕ) (used : List String) (m : String) (clipLen : ℕ)
    (hm : findClosestMusic p.emotions lib used = some m) (hl : loader m = some clipLen)
    (hp : prepareSegment clipLen (plannedDuration p i total cf) = none) :
    processParagraphs lib loader total cf (p :: rest) i used = none := by
  simp only [processParagraphs, hm, hl, hp]

theorem le_loopExtend (len : ℕ) (target : ℤ) (h : 0 < len) :
    target ≤ (loopExtend len target : ℤ) := by
  rw [loopExtend]
  split
  · next hc => exact le_loopExtend (len + len) target (by omega)
  · next hc => omega
termination_by (target - len).toNat
decreasing_by omega

theorem pySlice_eq_toNat (len : ℕ) (d : ℤ) (h0 : 0 ≤ d) (hle : d ≤ (len : ℤ)) :
    pySlice len d = d.toNat := by
  unfold pySlice
  rw [if_pos h0]
  omega

theorem prepareSegment_eq (clipLen : ℕ) (d : ℤ) (hc : 0 < clipLen) (hd : 0 ≤ d) :
    prepareSegment clipLen d = some d.toNat := by
  unfold prepareSegment
  rw [if_neg (by omega)]
  rw [pySlice_eq_toNat _ _ hd (le_loopExtend clipLen d hc)]

theorem normalizeLength_eq (len total : ℕ) : normalizeLength len total = total := by
  unfold normalizeLength pySlice
  split
  · next h => rw [if_pos (by omega)]; omega
  · split
    · next h => omega
    · next h h2 => omega

theorem assembleSegments_length (segs : List ℕ) (total cf fade : ℕ) (n : ℕ)
    (h : assembleSegments segs total cf fade = some n) : n = total := by
  match segs with
  | [] =>
      unfold assembleSegments at h
      simp only [Option.some.injEq] at h
      omega
  | s :: rest =>
      simp only [assembleSegments] at h
      cases hj : joinSegments cf s rest with
      | none => rw [hj] at h; exact absurd h (by simp)
      | some len =>
          rw [hj] at h
          simp only [Option.some.injEq, fadeInOut] at h
          rw [← h, normalizeLength_eq]

/-! ## Characterization of the matcher loop -/

theorem findClosestAux_spec (t : EmotionPoint) (used : List String)
    (l : List (String × EmotionPoint)) :
    ∀ acc : Option (ℚ × String),
      (findClosestAux t used l acc = acc ∧
        ∀ p ∈ l, p.1 ∉ used → ∃ a, acc = some a ∧ a.1 ≤ dist2 t p.2) ∨
      (∃ pre q suf, l = pre ++ q :: suf ∧ q.1 ∉ used ∧
        findClosestAux t used l acc = some (dist2 t q.2, q.1) ∧
        (∀ a, acc = some a → dist2 t q.2 < a.1) ∧
        (∀ r ∈ pre, r.1 ∉ used → dist2 t q.2 < dist2 t r.2) ∧
        (∀ r ∈ suf, r.1 ∉ used → dist2 t q.2 ≤ dist2 t r.2)) := by
  induction l with
  | nil =>
      intro acc
      left
      exact ⟨rfl, by simp⟩
  | cons hd tl ih =>
      intro acc
      obtain ⟨f, e⟩ := hd
      by_cases hf : f ∈ used
      · have heq : findClosestAux t used ((f, e) :: tl) acc = findClosestAux t used tl acc := by
          simp only [findClosestAux, if_pos hf]
        rcases ih acc with ⟨h1, h2⟩ | ⟨pre, q, suf, hdec, hq, hres, hacc, hpre, hsuf⟩
        · left
          refine ⟨heq.trans h1, ?_⟩
          intro p hp hpu
          rcases List.mem_cons.mp hp with rfl | hp2
          · exact absurd hf hpu
          · exact h2 p hp2 hpu
        · right
          refine ⟨(f, e) :: pre, q, suf, by simp [hdec], hq, heq.trans hres, hacc, ?_, hsuf⟩
          intro r hr hru
          rcases List.mem_cons.mp hr with rfl | hr2
          · exact absurd hf hru
          · exact hpre r hr2 hru
      · cases acc with
        | none =>
            have heq : findClosestAux t used ((f, e) :: tl) none =
                findClosestAux t used tl (some (dist2 t e, f)) := by
              simp only [findClosestAux, if_neg hf]
            rcases ih (some (dist2 t e, f)) with ⟨h1, h2⟩ |
              ⟨pre, q, suf, hdec, hq, hres, hacc, hpre, hsuf⟩
            · right
              refine ⟨[], (f, e), tl, rfl, hf, by rw [heq, h1], ?_, by simp, ?_⟩
              · intro a2 ha2
                exact absurd ha2 (by simp)
              · intro r hr hru
                obtain ⟨a2, ha2, hle⟩ := h2 r hr hru
                injection ha2 with ha2
                rw [← ha2] at hle
                exact hle
            · right
              refine ⟨(f, e) :: pre, q, suf, by simp [hdec], hq, heq.trans hres, ?_, ?_, hsuf⟩
              · intro a2 ha2
                exact absurd ha2 (by simp)
              · intro r hr hru
                rcases List.mem_cons.mp hr with rfl | hr2
                · exact hacc (dist2 t e, f) rfl
                · exact hpre r hr2 hru
        | some a =>
            by_cases hlt : dist2 t e < a.1
            · have heq : findClosestAux t used ((f, e) :: tl) (some a) =
                  findClosestAux t used tl (some (dist2 t e, f)) := by
                simp only [findClosestAux, if_neg hf, if_pos hlt]
              rcases ih (some (dist2 t e, f)) with ⟨h1, h2⟩ |
                ⟨pre, q, suf, hdec, hq, hres, hacc, hpre, hsuf⟩
              · right
                refine ⟨[], (f, e), tl, rfl, hf, by rw [heq, h1], ?_, by simp, ?_⟩
                · intro a2 ha2
                  injection ha2 with ha2
                  rw [← ha2]
                  exact hlt
                · intro r hr hru
                  obtain ⟨a2, ha2, hle⟩ := h2 r hr hru
                  injection ha2 with ha2
                  rw [← ha2] at hle
                  exact hle
              · right
                refine ⟨(f, e) :: pre, q, suf, by simp [hdec], hq, heq.trans hres, ?_, ?_, hsuf⟩
                · intro a2 ha2
                  injection ha2 with ha2
                  rw [← ha2]
                  exact lt_trans (hacc (dist2 t e, f) rfl) hlt
                · intro r hr hru
                  rcases List.mem_cons.mp hr with rfl | hr2
                  · exact hacc (dist2 t e, f) rfl
                  · exact hpre r hr2 hru
            · have heq : findClosestAux t used ((f, e) :: tl) (some a) =
                  findClosestAux t used tl (some a) := by
                simp only [findClosestAux, if_neg hf, if_neg hlt]
              rcases ih (some a) with ⟨h1, h2⟩ |
                ⟨pre, q, suf, hdec, hq, hres, hacc, hpre, hsuf⟩
              · left
                refine ⟨heq.trans h1, ?_⟩
                intro p hp hpu
                rcases List.mem_cons.mp hp with rfl | hp2
                · exact ⟨a, rfl, le_of_not_lt hlt⟩
                · exact h2 p hp2 hpu
              · right
                refine ⟨(f, e) :: pre, q, suf, by simp [hdec], hq, heq.trans hres, hacc, ?_, hsuf⟩
                intro r hr hru
                rcases List.mem_cons.mp hr with rfl | hr2
                · exact lt_of_lt_of_le (hacc a rfl) (le_of_not_lt hlt)
                · exact hpre r hr2 hru

theorem findClosestMusic_none_iff (t : EmotionPoint) (lib : List (String × EmotionPoint))
    (used : List String) :
    findClosestMusic t lib used = none ↔ ∀ p ∈ lib, p.1 ∈ used := by
  constructor
  · intro h p hp
    rcases findClosestAux_spec t used lib none with ⟨_, h2⟩ |
      ⟨pre, q, suf, hdec, hq, hres, _, _, _⟩
    · by_contra hpu
      obtain ⟨a, ha, _⟩ := h2 p hp hpu
      exact absurd ha (by simp)
    · unfold findClosestMusic at h
      rw [hres] at h
      simp at h
  · intro h
    rcases findClosestAux_spec t used lib none with ⟨h1, _⟩ |
      ⟨pre, q, suf, hdec, hq, _, _, _, _⟩
    · unfold findClosestMusic
      rw [h1]
      rfl
    · refine absurd (h q ?_) hq
      rw [hdec]
      exact List.mem_append_right _ (List.mem_cons_self _ _)

theorem findClosestMusic_min (t : EmotionPoint) (lib : List (String × EmotionPoint))
    (used : List String) (m : String) (h : findClosestMusic t lib used = some m) :
    ∃ pre q suf, lib = pre ++ q :: suf ∧ q.1 = m ∧ m ∉ used ∧
      (∀ r ∈ lib, r.1 ∉ used → dist2 t q.2 ≤ dist2 t r.2) ∧
      (∀ r ∈ pre, r.1 ∉ used → dist2 t q.2 < dist2 t r.2) := by
  rcases findClosestAux_spec t used lib none with ⟨h1, _⟩ |
    ⟨pre, q, suf, hdec, hq, hres, _, hpre, hsuf⟩
  · unfold findClosestMusic at h
    rw [h1] at h
    simp at h
  · unfold findClosestMusic at h
    rw [hres] at h
    rw [Option.map_some'] at h
    rw [Option.some_inj] at h
    refine ⟨pre, q, suf, hdec, h, h ▸ hq, ?_, hpre⟩
    intro r hr hru
    rw [hdec] at hr
    rcases List.mem_append.mp hr with hr1 | hr2
    · exact le_of_lt (hpre r hr1 hru)
    · rcases List.mem_cons.mp hr2 with rfl | hr3
      · exact le_refl _
      · exact hsuf r hr3 hru

theorem findClosestMusic_mem (t : EmotionPoint) (lib : List (String × EmotionPoint))
    (used : List String) (m : String) (h : findClosestMusic t lib used = some m) :
    m ∉ used ∧ ∃ e, (m, e) ∈ lib := by
  obtain ⟨pre, q, suf, hdec, hqm, hmu, _, _⟩ := findClosestMusic_min t lib used m h
  refine ⟨hmu, q.2, ?_⟩
  have hq : (m, q.2) = q := by
    rw [← hqm]
  rw [hq, hdec]
  exact List.mem_append_right _ (List.mem_cons_self _ _)

/-! ## Planner invariants -/

theorem processParagraphs_used (lib : List (String × EmotionPoint)) (loader : String → Option ℕ)
    (total cf : ℕ) (paras : List ParagraphSpec) :
    ∀ (i : ℕ) (used : List String) (assigns : List SegmentAssignment) (usedF : List String),
      processParagraphs lib loader total cf paras i used = some (assigns, usedF) →
      (∀ u ∈ used, u ∈ usedF) ∧ (∀ a ∈ assigns, a.id ∉ used) ∧
      (assigns.map SegmentAssignment.id).Nodup := by
  induction paras with
  | nil =>
      intro i used assigns usedF h
      rw [processParagraphs_nil] at h
      injection h with h
      injection h with h1 h2
      subst h1
      subst h2
      exact ⟨fun u hu => hu, by simp, by simp⟩
  | cons p rest ih =>
      intro i used assigns usedF h
      cases hm : findClosestMusic p.emotions lib used with
      | none =>
          rw [processParagraphs_skip_none _ _ _ _ _ _ _ _ hm] at h
          exact ih (i + 1) used assigns usedF h
      | some m =>
          cases hl : loader m with
          | none =>
              rw [processParagraphs_skip_unavail _ _ _ _ _ _ _ _ _ hm hl] at h
              exact ih (i + 1) used assigns usedF h
          | some clipLen =>
              cases hp : prepareSegment clipLen (plannedDuration p i total cf) with
              | none =>
                  rw [processParagraphs_diverge _ _ _ _ _ _ _ _ _ _ hm hl hp] at h
                  exact absurd h (by simp)
              | some segLen =>
                  rw [processParagraphs_assign _ _ _ _ _ _ _ _ _ _ _ hm hl hp] at h
                  cases hrec : processParagraphs lib loader total cf rest (i + 1) (m :: used) with
                  | none =>
                      rw [hrec] at h
                      exact absurd h (by simp)
                  | some r =>
                      rw [hrec] at h
                      obtain ⟨assigns2, usedF2⟩ := r
                      rw [Option.map_some'] at h
                      injection h with h
                      injection h with h1 h2
                      subst h1
                      subst h2
                      obtain ⟨ih1, ih2, ih3⟩ := ih (i + 1) (m :: used) assigns2 usedF2 hrec
                      have hmu : m ∉ used := (findClosestMusic_mem _ _ _ _ hm).1
                      refine ⟨?_, ?_, ?_⟩
                      · intro u hu
                        exact ih1 u (List.mem_cons_of_mem _ hu)
                      · intro a ha
                        rcases List.mem_cons.mp ha with rfl | ha2
                        · exact hmu
                        · intro hcon
                          exact ih2 a ha2 (List.mem_cons_of_mem _ hcon)
                      · rw [List.map_cons, List.nodup_cons]
                        constructor
                        · intro hmem
                          obtain ⟨a, ha, haid⟩ := List.mem_map.mp hmem
                          exact ih2 a ha (haid ▸ List.mem_cons_self m used)
                        · exact ih3

theorem processParagraphs_isSome (lib : List (String × EmotionPoint))
    (loader : String → Option ℕ) (total cf : ℕ)
    (hload : ∀ s n, loader s = some n → 0 < n) (paras : List ParagraphSpec) :
    ∀ (i : ℕ) (used : List String),
      ∃ r, processParagraphs lib loader total cf paras i used = some r := by
  induction paras with
  | nil =>
      intro i used
      exact ⟨([], used), processParagraphs_nil _ _ _ _ _ _⟩
  | cons p rest ih =>
      intro i used
      cases hm : findClosestMusic p.emotions lib used with
      | none =>
          obtain ⟨r, hr⟩ := ih (i + 1) used
          exact ⟨r, by rw [processParagraphs_skip_none _ _ _ _ _ _ _ _ hm]; exact hr⟩
      | some m =>
          cases hl : loader m with
          | none =>
              obtain ⟨r, hr⟩ := ih (i + 1) used
              exact ⟨r, by rw [processParagraphs_skip_unavail _ _ _ _ _ _ _ _ _ hm hl]; exact hr⟩
          | some clipLen =>
              have hc : 0 < clipLen := hload m clipLen hl
              have hp : prepareSegment clipLen (plannedDuration p i total cf) =
                  some (pySlice (loopExtend clipLen (plannedDuration p i total cf))
                    (plannedDuration p i total cf)) := by
                unfold prepareSegment
                rw [if_neg (by omega)]
              obtain ⟨r, hr⟩ := ih (i + 1) (m :: used)
              refine ⟨(SegmentAssignment.mk m (plannedDuration p i total cf)
                (pySlice (loopExtend clipLen (plannedDuration p i total cf))
                  (plannedDuration p i total cf)) :: r.1, r.2), ?_⟩
              rw [processParagraphs_assign _ _ _ _ _ _ _ _ _ _ _ hm hl hp, hr]
              rfl

theorem pyInt_nonneg (q : ℚ) (h : 0 ≤ q) : 0 ≤ pyInt q := by
  unfold pyInt
  rw [if_pos h]
  exact Int.floor_nonneg.mpr h

theorem plannedDuration_ge_cf (p : ParagraphSpec) (i : ℕ) (total cf : ℕ)
    (hspan : p.pStart ≤ p.pEnd) (hi : 1 ≤ i) :
    (cf : ℤ) ≤ plannedDuration p i total cf := by
  unfold plannedDuration
  rw [if_pos (by omega)]
  have h0 : 0 ≤ pyInt ((p.pEnd - p.pStart) * (total : ℚ)) :=
    pyInt_nonneg _ (mul_nonneg (by linarith) (by positivity))
  omega

theorem processParagraphs_segLen_ge (lib : List (String × EmotionPoint))
    (loader : String → Option ℕ) (total cf : ℕ) (hcf : 0 < cf) (paras : List ParagraphSpec)
    (hvalid : ∀ p ∈ paras, p.pStart ≤ p.pEnd) :
    ∀ (i : ℕ) (used : List String) (assigns : List SegmentAssignment) (usedF : List String),
      1 ≤ i →
      processParagraphs lib loader total cf paras i used = some (assigns, usedF) →
      ∀ a ∈ assigns, cf ≤ a.segLen := by
  induction paras with
  | nil =>
      intro i used assigns usedF hi h
      rw [processParagraphs_nil] at h
      injection h with h
      injection h with h1 h2
      subst h1
      simp
  | cons p rest ih =>
      intro i used assigns usedF hi h
      have hvrest : ∀ q ∈ rest, q.pStart ≤ q.pEnd :=
        fun q hq => hvalid q (List.mem_cons_of_mem _ hq)
      cases hm : findClosestMusic p.emotions lib used with
      | none =>
          rw [processParagraphs_skip_none _ _ _ _ _ _ _ _ hm] at h
          exact ih hvrest (i + 1) used assigns usedF (by omega) h
      | some m =>
          cases hl : loader m with
          | none =>
              rw [processParagraphs_skip_unavail _ _ _ _ _ _ _ _ _ hm hl] at h
              exact ih hvrest (i + 1) used assigns usedF (by omega) h
          | some clipLen =>
              have hdur : (cf : ℤ) ≤ plannedDuration p i total cf :=
                plannedDuration_ge_cf p i total cf (hvalid p (List.mem_cons_self _ _)) hi
              cases hp : prepareSegment clipLen (plannedDuration p i total cf) with
              | none =>
                  rw [processParagraphs_diverge _ _ _ _ _ _ _ _ _ _ hm hl hp] at h
                  exact absurd h (by simp)
              | some segLen =>
                  have hc : 0 < clipLen := by
                    by_contra hc0
                    have hz : clipLen = 0 := by omega
                    subst hz
                    unfold prepareSegment at hp
                    rw [if_pos (by constructor <;> omega)] at hp
                    exact absurd hp (by simp)
                  have hseg : segLen = (plannedDuration p i total cf).toNat := by
                    rw [prepareSegment_eq clipLen _ hc (by omega)] at hp
                    injection hp with hp
                    omega
                  rw [processParagraphs_assign _ _ _ _ _ _ _ _ _ _ _ hm hl hp] at h
                  cases hrec : processParagraphs lib loader total cf rest (i + 1) (m :: used) with
                  | none =>
                      rw [hrec] at h
                      exact absurd h (by simp)
                  | some r =>
                      rw [hrec] at h
                      obtain ⟨assigns2, usedF2⟩ := r
                      rw [Option.map_some'] at h
                      injection h with h
                      injection h with h1 h2
                      subst h1
                      intro a ha
                      rcases List.mem_cons.mp ha with rfl | ha2
                      · show cf ≤ segLen
                        omega
                      · exact ih hvrest (i + 1) (m :: used) assigns2 usedF2 (by omega) hrec a ha2

/-! ## Join and assembly lemmas -/

theorem crossfadeAppend_ok (a b cf : ℕ) (ha : cf ≤ a) (hb : cf ≤ b) :
    crossfadeAppend a b cf = some (a + b - cf) := by
  unfold crossfadeAppend
  rcases Nat.eq_zero_or_pos cf with h0 | h0
  · subst h0
    rw [if_pos rfl, Nat.sub_zero]
  · rw [if_neg (by omega), if_neg (by omega), if_neg (by omega)]

theorem joinSegments_ok (cf : ℕ) (segs : List ℕ) :
    ∀ acc : ℕ, cf ≤ acc → (∀ s ∈ segs, cf ≤ s) →
      ∃ n, joinSegments cf acc segs = some n := by
  induction segs with
  | nil =>
      intro acc _ _
      exact ⟨acc, rfl⟩
  | cons s rest ih =>
      intro acc hacc hsegs
      have hs : cf ≤ s := hsegs s (List.mem_cons_self _ _)
      obtain ⟨n, hn⟩ :=
        ih (acc + s - cf) (by omega) (fun x hx => hsegs x (List.mem_cons_of_mem _ hx))
      refine ⟨n, ?_⟩
      simp only [joinSegments, crossfadeAppend_ok acc s cf hacc hs]
      exact hn

theorem joinSegments_zero (segs : List ℕ) :
    ∀ acc : ℕ, ∃ n, joinSegments 0 acc segs = some n := by
  induction segs with
  | nil =>
      intro acc
      exact ⟨acc, rfl⟩
  | cons s rest ih =>
      intro acc
      obtain ⟨n, hn⟩ := ih (acc + s)
      refine ⟨n, ?_⟩
      simp only [joinSegments, crossfadeAppend, if_pos rfl]
      exact hn

theorem assembleSegments_exn (segs : List ℕ) (total cf fade : ℕ)
    (h : assembleSegments segs total cf fade = none) :
    ∃ s rest, segs = s :: rest ∧ joinSegments cf s rest = none := by
  match segs with
  | [] =>
      unfold assembleSegments at h
      exact absurd h (by simp)
  | s :: rest =>
      simp only [assembleSegments] at h
      cases hj : joinSegments cf s rest with
      | none => exact ⟨s, rest, rfl, hj⟩
      | some len =>
          rw [hj] at h
          exact absurd h (by simp)

theorem processParagraphs_tail_segLen_ge (lib : List (String × EmotionPoint))
    (loader : String → Option ℕ) (total cf : ℕ) (hcf : 0 < cf) (paras : List ParagraphSpec)
    (hvalid : ∀ p ∈ paras, p.pStart ≤ p.pEnd) :
    ∀ (i : ℕ) (used : List String) (a : SegmentAssignment)
      (as : List SegmentAssignment) (usedF : List String),
      processParagraphs lib loader total cf paras i used = some (a :: as, usedF) →
      ∀ x ∈ as, cf ≤ x.segLen := by
  induction paras with
  | nil =>
      intro i used a as usedF h
      rw [processParagraphs_nil] at h
      injection h with h
      injection h with h1 h2
      exact absurd h1 (by simp)
  | cons p rest ih =>
      intro i used a as usedF h
      have hvrest : ∀ q ∈ rest, q.pStart ≤ q.pEnd :=
        fun q hq => hvalid q (List.mem_cons_of_mem _ hq)
      cases hm : findClosestMusic p.emotions lib used with
      | none =>
          rw [processParagraphs_skip_none _ _ _ _ _ _ _ _ hm] at h
          exact ih hvrest (i + 1) used a as usedF h
      | some m =>
          cases hl : loader m with
          | none =>
              rw [processParagraphs_skip_unavail _ _ _ _ _ _ _ _ _ hm hl] at h
              exact ih hvrest (i + 1) used a as usedF h
          | some clipLen =>
              cases hp : prepareSegment clipLen (plannedDuration p i total cf) with
              | none =>
                  rw [processParagraphs_diverge _ _ _ _ _ _ _ _ _ _ hm hl hp] at h
                  exact absurd h (by simp)
              | some segLen =>
                  rw [processParagraphs_assign _ _ _ _ _ _ _ _ _ _ _ hm hl hp] at h
                  cases hrec : processParagraphs lib loader total cf rest (i + 1) (m :: used) with
                  | none =>
                      rw [hrec] at h
                      exact absurd h (by simp)
                  | some r =>
                      rw [hrec] at h
                      obtain ⟨assigns2, usedF2⟩ := r
                      rw [Option.map_some'] at h
                      injection h with h
                      injection h with h1 h2
                      injection h1 with h1a h1b
                      exact h1b ▸ processParagraphs_segLen_ge lib loader total cf hcf rest hvrest
                        (i + 1) (m :: used) assigns2 usedF2 (by omega) hrec

theorem createMusicSequence_eq_of_proc (paras : List ParagraphSpec)
    (lib : List (String × EmotionPoint)) (loader : String → Option ℕ) (total cf fade : ℕ)
    (assigns : List SegmentAssignment) (usedF : List String)
    (hproc : processParagraphs lib loader total cf paras 0 [] = some (assigns, usedF)) :
    createMusicSequence paras lib loader total cf fade =
      match assembleSegments (assigns.map SegmentAssignment.segLen) total cf fade with
      | none => SeqResult.exn
      | some n => SeqResult.ok n := by
  unfold createMusicSequence
  rw [hproc]

theorem createMusicSequence_exn_shape (paras : List ParagraphSpec)
    (lib : List (String × EmotionPoint)) (loader : String → Option ℕ) (total cf fade : ℕ)
    (hvalid : ∀ p ∈ paras, p.pStart ≤ p.pEnd)
    (hexn : createMusicSequence paras lib loader total cf fade = SeqResult.exn) :
    ∃ a as usedF, processParagraphs lib loader total cf paras 0 [] = some (a :: as, usedF) ∧
      as ≠ [] ∧ a.segLen < cf ∧ 0 < cf := by
  cases hproc : processParagraphs lib loader total cf paras 0 [] with
  | none =>
      unfold createMusicSequence at hexn
      rw [hproc] at hexn
      exact absurd hexn (by simp)
  | some r =>
      obtain ⟨assigns, usedF⟩ := r
      rw [createMusicSequence_eq_of_proc paras lib loader total cf fade assigns usedF hproc]
        at hexn
      cases hasm : assembleSegments (assigns.map SegmentAssignment.segLen) total cf fade with
      | some n =>
          rw [hasm] at hexn
          exact absurd hexn (by simp)
      | none =>
          obtain ⟨s, rest, hseq, hjoin⟩ := assembleSegments_exn _ _ _ _ hasm
          cases assigns with
          | nil => exact absurd hseq (by simp)
          | cons a as =>
              rw [List.map_cons] at hseq
              injection hseq with hs1 hs2
              have hcf : 0 < cf := by
                by_contra hcf0
                have hz : cf = 0 := by omega
                subst hz
                obtain ⟨n, hn⟩ := joinSegments_zero rest s
                rw [hn] at hjoin
                exact absurd hjoin (by simp)
              have htail : ∀ x ∈ as, cf ≤ x.segLen :=
                processParagraphs_tail_segLen_ge lib loader total cf hcf paras hvalid
                  0 [] a as usedF hproc
              have hne : as ≠ [] := by
                intro hnil
                subst hnil
                rw [← hs2] at hjoin
                exact absurd hjoin (by simp [joinSegments])
              have hlt : a.segLen < cf := by
                by_contra hge
                have hrest : ∀ x ∈ rest, cf ≤ x := by
                  intro x hx
                  rw [← hs2] at hx
                  obtain ⟨y, hy, hxy⟩ := List.mem_map.mp hx
                  exact hxy ▸ htail y hy
                obtain ⟨n, hn⟩ := joinSegments_ok cf rest s (by rw [← hs1]; omega) hrest
                rw [hn] at hjoin
                exact absurd hjoin (by simp)
              exact ⟨a, as, usedF, rfl, hne, hlt, hcf⟩

theorem createMusicSequence_not_diverge (paras : List ParagraphSpec)
    (lib : List (String × EmotionPoint)) (loader : String → Option ℕ) (total cf fade : ℕ)
    (hload : ∀ s n, loader s = some n → 0 < n) :
    createMusicSequence paras lib loader total cf fade ≠ SeqResult.diverge := by
  obtain ⟨r, hr⟩ := processParagraphs_isSome lib loader total cf hload paras 0 []
  obtain ⟨assigns, usedF⟩ := r
  rw [createMusicSequence_eq_of_proc paras lib loader total cf fade assigns usedF hr]
  cases hasm : assembleSegments (assigns.map SegmentAssignment.segLen) total cf fade with
  | none => simp
  | some n => simp

theorem processParagraphs_congr (lib : List (String × EmotionPoint))
    (loader1 loader2 : String → Option ℕ) (total cf : ℕ)
    (h : ∀ p ∈ lib, loader1 p.1 = loader2 p.1) (paras : List ParagraphSpec) :
    ∀ (i : ℕ) (used : List String),
      processParagraphs lib loader1 total cf paras i used =
        processParagraphs lib loader2 total cf paras i used := by
  induction paras with
  | nil =>
      intro i used
      rfl
  | cons p rest ih =>
      intro i used
      cases hm : findClosestMusic p.emotions lib used with
      | none =>
          rw [processParagraphs_skip_none lib loader1 _ _ _ _ _ _ hm,
            processParagraphs_skip_none lib loader2 _ _ _ _ _ _ hm]
          exact ih (i + 1) used
      | some m =>
          obtain ⟨_, e, he⟩ := findClosestMusic_mem _ _ _ _ hm
          have hl12 : loader1 m = loader2 m := h (m, e) he
          cases hl : loader1 m with
          | none =>
              rw [processParagraphs_skip_unavail lib loader1 _ _ _ _ _ _ _ hm hl,
                processParagraphs_skip_unavail lib loader2 _ _ _ _ _ _ _ hm
                  (by rw [← hl12]; exact hl)]
              exact ih (i + 1) used
          | some clipLen =>
              cases hp : prepareSegment clipLen (plannedDuration p i total cf) with
              | none =>
                  rw [processParagraphs_diverge lib loader1 _ _ _ _ _ _ _ _ hm hl hp,
                    processParagraphs_diverge lib loader2 _ _ _ _ _ _ _ _ hm
                      (by rw [← hl12]; exact hl) hp]
              | some segLen =>
                  rw [processParagraphs_assign lib loader1 _ _ _ _ _ _ _ _ _ hm hl hp,
                    processParagraphs_assign lib loader2 _ _ _ _ _ _ _ _ _ hm
                      (by rw [← hl12]; exact hl) hp, ih (i + 1) (m :: used)]

/-! ## Claim theorems -/

/-- C1: for every target, library and exclusion set, find_closest_music
returns an id that is in the library, not excluded, and whose Euclidean
distance sqrt((target.valence - c.valence)^2 + (target.arousal -
c.arousal)^2) to the target is at most the distance of every other
non-excluded candidate; exact-distance ties are broken by iteration
order over the library (every earlier non-excluded entry is strictly
farther, so the first encountered wins); the result is none exactly when
the library is empty or every candidate is excluded, and the embedded
function is total, mirroring the source which raises no exception in
that case. -/
theorem claim1_find_closest_correct (t : EmotionPoint)
    (lib : List (String × EmotionPoint)) (used : List String) :
    (findClosestMusic t lib used = none ↔ ∀ p ∈ lib, p.1 ∈ used) ∧
    (∀ m, findClosestMusic t lib used = some m →
      ∃ pre q suf, lib = pre ++ q :: suf ∧ q.1 = m ∧ m ∉ used ∧
        (∀ r ∈ lib, r.1 ∉ used →
          Real.sqrt ((dist2 t q.2 : ℝ)) ≤ Real.sqrt ((dist2 t r.2 : ℝ))) ∧
        (∀ r ∈ pre, r.1 ∉ used → dist2 t q.2 < dist2 t r.2)) := by
  refine ⟨findClosestMusic_none_iff t lib used, ?_⟩
  intro m hm
  obtain ⟨pre, q, suf, hdec, hqm, hmu, hmin, hpre⟩ := findClosestMusic_min t lib used m hm
  refine ⟨pre, q, suf, hdec, hqm, hmu, ?_, hpre⟩
  intro r hr hru
  exact Real.sqrt_le_sqrt (by exact_mod_cast hmin r hr hru)

/-- Witness for C1 at a concrete two-clip library with an exact winner. -/
theorem claim1_find_closest_correct_witness :
    ∃ pre q suf,
      ([("a", EmotionPoint.mk 0 0), ("b", EmotionPoint.mk 1 1)] :
        List (String × EmotionPoint)) = pre ++ q :: suf ∧ q.1 = "a" ∧
      "a" ∉ ([] : List String) ∧
      (∀ r ∈ ([("a", EmotionPoint.mk 0 0), ("b", EmotionPoint.mk 1 1)] :
          List (String × EmotionPoint)), r.1 ∉ ([] : List String) →
        Real.sqrt ((dist2 (EmotionPoint.mk 0 0) q.2 : ℝ)) ≤
          Real.sqrt ((dist2 (EmotionPoint.mk 0 0) r.2 : ℝ))) ∧
      (∀ r ∈ pre, r.1 ∉ ([] : List String) →
        dist2 (EmotionPoint.mk 0 0) q.2 < dist2 (EmotionPoint.mk 0 0) r.2) :=
  (claim1_find_closest_correct (EmotionPoint.mk 0 0)
    [("a", EmotionPoint.mk 0 0), ("b", EmotionPoint.mk 1 1)] []).2 "a"
    (by norm_num [findClosestMusic, findClosestAux, dist2])

/-- C2 counterexample: the source computes the raw duration with Python
int(), which truncates toward zero, not with round(); for a paragraph
spanning two thirds of a 100 ms track the code plans 66 ms while the
round formula of the spec yields 67 ms. -/
theorem claim2_counterexample :
    plannedDuration (ParagraphSpec.mk (EmotionPoint.mk 0 0) 0 (2/3)) 0 100 5000 = 66 ∧
    rawDurationSpec (ParagraphSpec.mk (EmotionPoint.mk 0 0) 0 (2/3)) 100 = 67 := by
  constructor
  · norm_num [plannedDuration, pyInt]
  · norm_num [rawDurationSpec, round_eq]

/-- C2 (amended): the planner computes raw_duration = int((proportion_end
- proportion_start) * total_duration_ms), truncation toward zero rather
than rounding; the planned duration is raw_duration for i = 0 and
raw_duration + crossfade_ms for i > 0; and for two paragraphs covering
the halves of a 60000 ms track with a 5000 ms crossfade the pipeline
produces planned durations 30000 and 35000. -/
theorem claim2_planned_duration (p : ParagraphSpec) (total cf : ℕ) :
    (plannedDuration p 0 total cf = pyInt ((p.pEnd - p.pStart) * (total : ℚ)) ∧
      ∀ i : ℕ, 0 < i →
        plannedDuration p i total cf =
          pyInt ((p.pEnd - p.pStart) * (total : ℚ)) + (cf : ℤ)) ∧
    Option.map (fun r => r.1.map SegmentAssignment.duration)
      (processParagraphs [("a", EmotionPoint.mk 0 0), ("b", EmotionPoint.mk 1 1)]
        (fun _ => some 60000) 60000 5000
        [ParagraphSpec.mk (EmotionPoint.mk 0 0) 0 (1/2),
          ParagraphSpec.mk (EmotionPoint.mk 1 1) (1/2) 1] 0 []) =
      some [30000, 35000] := by
  constructor
  · constructor
    · unfold plannedDuration
      rw [if_neg (by omega)]
      omega
    · intro i hi
      unfold plannedDuration
      rw [if_pos hi]
  · have hf1 : findClosestMusic (EmotionPoint.mk 0 0)
        [("a", EmotionPoint.mk 0 0), ("b", EmotionPoint.mk 1 1)] [] = some "a" := by
      norm_num [findClosestMusic, findClosestAux, dist2]
    have hf2 : findClosestMusic (EmotionPoint.mk 1 1)
        [("a", EmotionPoint.mk 0 0), ("b", EmotionPoint.mk 1 1)] ["a"] = some "b" := by
      norm_num [findClosestMusic, findClosestAux, dist2]
      decide
    have hd1 : plannedDuration (ParagraphSpec.mk (EmotionPoint.mk 0 0) 0 (1/2))
        0 60000 5000 = 30000 := by
      norm_num [plannedDuration, pyInt]
    have hd2 : plannedDuration (ParagraphSpec.mk (EmotionPoint.mk 1 1) (1/2) 1)
        1 60000 5000 = 35000 := by
      norm_num [plannedDuration, pyInt]
    have hp1 : prepareSegment 60000 (plannedDuration
        (ParagraphSpec.mk (EmotionPoint.mk 0 0) 0 (1/2)) 0 60000 5000) = some 30000 := by
      rw [hd1, prepareSegment_eq 60000 30000 (by norm_num) (by norm_num)]
      rfl
    have hp2 : prepareSegment 60000 (plannedDuration
        (ParagraphSpec.mk (EmotionPoint.mk 1 1) (1/2) 1) 1 60000 5000) = some 35000 := by
      rw [hd2, prepareSegment_eq 60000 35000 (by norm_num) (by norm_num)]
      rfl
    have e2 : processParagraphs [("a", EmotionPoint.mk 0 0), ("b", EmotionPoint.mk 1 1)]
        (fun _ => some 60000) 60000 5000
        [ParagraphSpec.mk (EmotionPoint.mk 1 1) (1/2) 1] 1 ["a"] =
        some ([SegmentAssignment.mk "b" 35000 35000], ["b", "a"]) := by
      rw [processParagraphs_assign _ _ _ _ _ _ _ _ "b" 60000 35000 hf2 rfl hp2,
        processParagraphs_nil]
      simp only [hd2]
      rfl
    have e1 : processParagraphs [("a", EmotionPoint.mk 0 0), ("b", EmotionPoint.mk 1 1)]
        (fun _ => some 60000) 60000 5000
        [ParagraphSpec.mk (EmotionPoint.mk 0 0) 0 (1/2),
          ParagraphSpec.mk (EmotionPoint.mk 1 1) (1/2) 1] 0 [] =
        some ([SegmentAssignment.mk "a" 30000 30000,
          SegmentAssignment.mk "b" 35000 35000], ["b", "a"]) := by
      rw [processParagraphs_assign _ _ _ _ _ _ _ _ "a" 60000 30000 hf1 rfl hp1, e2]
      simp only [hd1]
      rfl
    rw [e1]
    rfl

/-- Witness for C2 (amended) at the second half-track paragraph. -/
theorem claim2_planned_duration_witness :
    plannedDuration (ParagraphSpec.mk (EmotionPoint.mk 1 1) (1/2) 1) 1 60000 5000 =
      pyInt ((1 - 1/2) * (60000 : ℚ)) + (5000 : ℤ) :=
  (claim2_planned_duration (ParagraphSpec.mk (EmotionPoint.mk 1 1) (1/2) 1) 60000 5000).1.2
    1 (by norm_num)

/-- C3 counterexample: not every input yields a buffer at all.  With a
first paragraph spanning 1/30 of a 60000 ms track (prepared length 2000
ms) followed by a second segment, the crossfade join of pydub raises
ValueError (5000 ms crossfade longer than the 2000 ms accumulator), so
create_music_sequence aborts instead of returning a buffer of length
total_duration_ms. -/
theorem claim3_counterexample : createMusicSequence
    [ParagraphSpec.mk (EmotionPoint.mk 0 0) 0 (1/30),
      ParagraphSpec.mk (EmotionPoint.mk 1 1) (1/30) 1]
    [("a", EmotionPoint.mk 0 0), ("b", EmotionPoint.mk 1 1)]
    (fun _ => some 8000) 60000 5000 3000 = SeqResult.exn := by
  have hf1 : findClosestMusic (EmotionPoint.mk 0 0)
      [("a", EmotionPoint.mk 0 0), ("b", EmotionPoint.mk 1 1)] [] = some "a" := by
    norm_num [findClosestMusic, findClosestAux, dist2]
  have hf2 : findClosestMusic (EmotionPoint.mk 1 1)
      [("a", EmotionPoint.mk 0 0), ("b", EmotionPoint.mk 1 1)] ["a"] = some "b" := by
    norm_num [findClosestMusic, findClosestAux, dist2]
    decide
  have hd1 : plannedDuration (ParagraphSpec.mk (EmotionPoint.mk 0 0) 0 (1/30))
      0 60000 5000 = 2000 := by
    norm_num [plannedDuration, pyInt]
  have hd2 : plannedDuration (ParagraphSpec.mk (EmotionPoint.mk 1 1) (1/30) 1)
      1 60000 5000 = 63000 := by
    norm_num [plannedDuration, pyInt]
  have hp1 : prepareSegment 8000 (plannedDuration
      (ParagraphSpec.mk (EmotionPoint.mk 0 0) 0 (1/30)) 0 60000 5000) = some 2000 := by
    rw [hd1, prepareSegment_eq 8000 2000 (by norm_num) (by norm_num)]
    rfl
  have hp2 : prepareSegment 8000 (plannedDuration
      (ParagraphSpec.mk (EmotionPoint.mk 1 1) (1/30) 1) 1 60000 5000) = some 63000 := by
    rw [hd2, prepareSegment_eq 8000 63000 (by norm_num) (by norm_num)]
    rfl
  have e2 : processParagraphs [("a", EmotionPoint.mk 0 0), ("b", EmotionPoint.mk 1 1)]
      (fun _ => some 8000) 60000 5000
      [ParagraphSpec.mk (EmotionPoint.mk 1 1) (1/30) 1] 1 ["a"] =
      some ([SegmentAssignment.mk "b" 63000 63000], ["b", "a"]) := by
    rw [processParagraphs_assign _ _ _ _ _ _ _ _ "b" 8000 63000 hf2 rfl hp2,
      processParagraphs_nil]
    simp only [hd2]
    rfl
  have e1 : processParagraphs [("a", EmotionPoint.mk 0 0), ("b", EmotionPoint.mk 1 1)]
      (fun _ => some 8000) 60000 5000
      [ParagraphSpec.mk (EmotionPoint.mk 0 0) 0 (1/30),
        ParagraphSpec.mk (EmotionPoint.mk 1 1) (1/30) 1] 0 [] =
      some ([SegmentAssignment.mk "a" 2000 2000,
        SegmentAssignment.mk "b" 63000 63000], ["b", "a"]) := by
    rw [processParagraphs_assign _ _ _ _ _ _ _ _ "a" 8000 2000 hf1 rfl hp1, e2]
    simp only [hd1]
    rfl
  rw [createMusicSequence_eq_of_proc _ _ _ _ _ _ _ _ e1]
  simp only [List.map]
  simp only [assembleSegments, joinSegments]
  norm_num [crossfadeAppend]

/-- C3 (amended): whenever create_music_sequence returns a buffer (the
crossfade join not raising and every prepared clip non-empty), that
buffer has length exactly total_duration_ms, and an empty paragraph list
always yields the full-length silent buffer. -/
theorem claim3_output_length (paras : List ParagraphSpec)
    (lib : List (String × EmotionPoint)) (loader : String → Option ℕ) (total cf fade : ℕ) :
    (∀ n, createMusicSequence paras lib loader total cf fade = SeqResult.ok n → n = total) ∧
    createMusicSequence [] lib loader total cf fade = SeqResult.ok total := by
  constructor
  · intro n hn
    cases hproc : processParagraphs lib loader total cf paras 0 [] with
    | none =>
        unfold createMusicSequence at hn
        rw [hproc] at hn
        exact absurd hn (by simp)
    | some r =>
        obtain ⟨assigns, usedF⟩ := r
        rw [createMusicSequence_eq_of_proc paras lib loader total cf fade assigns usedF hproc]
          at hn
        cases hasm : assembleSegments (assigns.map SegmentAssignment.segLen) total cf fade with
        | none =>
            rw [hasm] at hn
            exact absurd hn (by simp)
        | some k =>
            rw [hasm] at hn
            injection hn with hn
            rw [← hn]
            exact assembleSegments_length _ _ _ _ _ hasm
  · rw [createMusicSequence_eq_of_proc [] lib loader total cf fade [] []
      (processParagraphs_nil _ _ _ _ _ _)]
    rfl

/-- Witness for C3 (amended): the empty run returns ok 60000 and the
length law instantiates to 60000 = 60000. -/
theorem claim3_output_length_witness :
    createMusicSequence [] [("a", EmotionPoint.mk 0 0)] (fun _ => some 1000) 60000 5000 3000 =
      SeqResult.ok 60000 ∧ (60000 : ℕ) = 60000 :=
  ⟨(claim3_output_length [] [("a", EmotionPoint.mk 0 0)]
      (fun _ => some 1000) 60000 5000 3000).2,
    (claim3_output_length [] [("a", EmotionPoint.mk 0 0)]
      (fun _ => some 1000) 60000 5000 3000).1 60000 (by rfl)⟩

/-- C4 counterexample: the core can abort with an exception.  A first
paragraph spanning 1/20 of the track prepares a 3000 ms segment; joining
the 62000 ms second segment with a 5000 ms crossfade makes pydub append
raise ValueError, so this execution of create_music_sequence is an
uncaught exception, not a locally recovered error. -/
theorem claim4_counterexample : createMusicSequence
    [ParagraphSpec.mk (EmotionPoint.mk 0 0) 0 (1/20),
      ParagraphSpec.mk (EmotionPoint.mk 1 1) (1/20) 1]
    [("a", EmotionPoint.mk 0 0), ("b", EmotionPoint.mk 1 1)]
    (fun _ => some 10000) 60000 5000 3000 = SeqResult.exn := by
  have hf1 : findClosestMusic (EmotionPoint.mk 0 0)
      [("a", EmotionPoint.mk 0 0), ("b", EmotionPoint.mk 1 1)] [] = some "a" := by
    norm_num [findClosestMusic, findClosestAux, dist2]
  have hf2 : findClosestMusic (EmotionPoint.mk 1 1)
      [("a", EmotionPoint.mk 0 0), ("b", EmotionPoint.mk 1 1)] ["a"] = some "b" := by
    norm_num [findClosestMusic, findClosestAux, dist2]
    decide
  have hd1 : plannedDuration (ParagraphSpec.mk (EmotionPoint.mk 0 0) 0 (1/20))
      0 60000 5000 = 3000 := by
    norm_num [plannedDuration, pyInt]
  have hd2 : plannedDuration (ParagraphSpec.mk (EmotionPoint.mk 1 1) (1/20) 1)
      1 60000 5000 = 62000 := by
    norm_num [plannedDuration, pyInt]
  have hp1 : prepareSegment 10000 (plannedDuration
      (ParagraphSpec.mk (EmotionPoint.mk 0 0) 0 (1/20)) 0 60000 5000) = some 3000 := by
    rw [hd1, prepareSegment_eq 10000 3000 (by norm_num) (by norm_num)]
    rfl
  have hp2 : prepareSegment 10000 (plannedDuration
      (ParagraphSpec.mk (EmotionPoint.mk 1 1) (1/20) 1) 1 60000 5000) = some 62000 := by
    rw [hd2, prepareSegment_eq 10000 62000 (by norm_num) (by norm_num)]
    rfl
  have e2 : processParagraphs [("a", EmotionPoint.mk 0 0), ("b", EmotionPoint.mk 1 1)]
      (fun _ => some 10000) 60000 5000
      [ParagraphSpec.mk (EmotionPoint.mk 1 1) (1/20) 1] 1 ["a"] =
      some ([SegmentAssignment.mk "b" 62000 62000], ["b", "a"]) := by
    rw [processParagraphs_assign _ _ _ _ _ _ _ _ "b" 10000 62000 hf2 rfl hp2,
      processParagraphs_nil]
    simp only [hd2]
    rfl
  have e1 : processParagraphs [("a", EmotionPoint.mk 0 0), ("b", EmotionPoint.mk 1 1)]
      (fun _ => some 10000) 60000 5000
      [ParagraphSpec.mk (EmotionPoint.mk 0 0) 0 (1/20),
        ParagraphSpec.mk (EmotionPoint.mk 1 1) (1/20) 1] 0 [] =
      some ([SegmentAssignment.mk "a" 3000 3000,
        SegmentAssignment.mk "b" 62000 62000], ["b", "a"]) := by
    rw [processParagraphs_assign _ _ _ _ _ _ _ _ "a" 10000 3000 hf1 rfl hp1, e2]
    simp only [hd1]
    rfl
  rw [createMusicSequence_eq_of_proc _ _ _ _ _ _ _ _ e1]
  simp only [List.map]
  simp only [assembleSegments, joinSegments]
  norm_num [crossfadeAppend]

/-- C4 (amended): with valid paragraphs and non-empty loadable clips the
core never diverges; NoCandidate and ClipUnavailable skips and the
EmptyAssignmentList fallback are recovered locally (an empty assignment
list still returns the full-length silent buffer); the only abort is the
crossfade join, which raises exactly in runs whose first prepared
segment is shorter than a positive crossfade and is followed by at least
one more segment; and the decibel conversion raises nothing but does
produce a non-finite gain at multiplier 0 while being finite at 1. -/
theorem claim4_no_abort (paras : List ParagraphSpec) (lib : List (String × EmotionPoint))
    (loader : String → Option ℕ) (total cf fade : ℕ)
    (hload : ∀ s n, loader s = some n → 0 < n)
    (hvalid : ∀ p ∈ paras, p.pStart ≤ p.pEnd) :
    createMusicSequence paras lib loader total cf fade ≠ SeqResult.diverge ∧
    (createMusicSequence paras lib loader total cf fade = SeqResult.exn →
      ∃ a as usedF,
        processParagraphs lib loader total cf paras 0 [] = some (a :: as, usedF) ∧
        as ≠ [] ∧ a.segLen < cf ∧ 0 < cf) ∧
    (∀ usedF, processParagraphs lib loader total cf paras 0 [] = some ([], usedF) →
      createMusicSequence paras lib loader total cf fade = SeqResult.ok total) ∧
    volumeToDb 1 = VolumeGain.db 1 ∧ volumeToDb 0 = VolumeGain.negInf := by
  refine ⟨createMusicSequence_not_diverge paras lib loader total cf fade hload,
    fun hexn => createMusicSequence_exn_shape paras lib loader total cf fade hvalid hexn,
    ?_, by norm_num [volumeToDb], by norm_num [volumeToDb]⟩
  intro usedF hproc
  rw [createMusicSequence_eq_of_proc paras lib loader total cf fade [] usedF hproc]
  rfl

/-- Witness for C4 (amended) on a concrete valid one-paragraph input. -/
theorem claim4_no_abort_witness :
    createMusicSequence [ParagraphSpec.mk (EmotionPoint.mk 0 0) 0 (1/2)]
        [("a", EmotionPoint.mk 0 0)] (fun _ => some 1000) 60000 5000 3000 ≠
      SeqResult.diverge ∧
    (createMusicSequence [ParagraphSpec.mk (EmotionPoint.mk 0 0) 0 (1/2)]
        [("a", EmotionPoint.mk 0 0)] (fun _ => some 1000) 60000 5000 3000 = SeqResult.exn →
      ∃ a as usedF,
        processParagraphs [("a", EmotionPoint.mk 0 0)] (fun _ => some 1000) 60000 5000
          [ParagraphSpec.mk (EmotionPoint.mk 0 0) 0 (1/2)] 0 [] = some (a :: as, usedF) ∧
        as ≠ [] ∧ a.segLen < 5000 ∧ 0 < 5000) ∧
    (∀ usedF, processParagraphs [("a", EmotionPoint.mk 0 0)] (fun _ => some 1000) 60000 5000
        [ParagraphSpec.mk (EmotionPoint.mk 0 0) 0 (1/2)] 0 [] = some ([], usedF) →
      createMusicSequence [ParagraphSpec.mk (EmotionPoint.mk 0 0) 0 (1/2)]
        [("a", EmotionPoint.mk 0 0)] (fun _ => some 1000) 60000 5000 3000 =
        SeqResult.ok 60000) ∧
    volumeToDb 1 = VolumeGain.db 1 ∧ volumeToDb 0 = VolumeGain.negInf :=
  claim4_no_abort [ParagraphSpec.mk (EmotionPoint.mk 0 0) 0 (1/2)]
    [("a", EmotionPoint.mk 0 0)] (fun _ => some 1000) 60000 5000 3000
    (by
      intro s n h
      injection h with h
      omega)
    (by
      intro p hp
      rw [List.mem_singleton] at hp
      subst hp
      norm_num)

/-- C5: a paragraph whose match is none, or whose matched id has no
loadable audio, is skipped: the run on it equals the run on the
remaining paragraphs with the same used_clip_ids set (no segment
appended, no id added), while a successful paragraph prepends exactly
one assignment, so the output ordering is the paragraph ordering minus
the skipped entries. -/
theorem claim5_skip_policy (lib : List (String × EmotionPoint)) (loader : String → Option ℕ)
    (total cf : ℕ) (p : ParagraphSpec) (rest : List ParagraphSpec) (i : ℕ)
    (used : List String) :
    ((findClosestMusic p.emotions lib used = none ∨
        ∃ m, findClosestMusic p.emotions lib used = some m ∧ loader m = none) →
      processParagraphs lib loader total cf (p :: rest) i used =
        processParagraphs lib loader total cf rest (i + 1) used) ∧
    (∀ m clipLen segLen, findClosestMusic p.emotions lib used = some m →
      loader m = some clipLen →
      prepareSegment clipLen (plannedDuration p i total cf) = some segLen →
      processParagraphs lib loader total cf (p :: rest) i used =
        Option.map (fun r =>
          (SegmentAssignment.mk m (plannedDuration p i total cf) segLen :: r.1, r.2))
          (processParagraphs lib loader total cf rest (i + 1) (m :: used))) := by
  constructor
  · intro h
    rcases h with hm | ⟨m, hm, hl⟩
    · exact processParagraphs_skip_none _ _ _ _ _ _ _ _ hm
    · exact processParagraphs_skip_unavail _ _ _ _ _ _ _ _ _ hm hl
  · intro m clipLen segLen hm hl hp
    exact processParagraphs_assign _ _ _ _ _ _ _ _ _ _ _ hm hl hp

/-- Witness for C5: a matched but unavailable clip id makes the paragraph
contribute nothing and leave used_clip_ids untouched. -/
theorem claim5_skip_policy_witness :
    processParagraphs [("a", EmotionPoint.mk 0 0)] (fun _ => none) 60000 5000
      [ParagraphSpec.mk (EmotionPoint.mk 0 0) 0 (1/2)] 0 [] =
    processParagraphs [("a", EmotionPoint.mk 0 0)] (fun _ => none) 60000 5000 [] 1 [] :=
  (claim5_skip_policy [("a", EmotionPoint.mk 0 0)] (fun _ => none) 60000 5000
    (ParagraphSpec.mk (EmotionPoint.mk 0 0) 0 (1/2)) [] 0 []).1
    (Or.inr ⟨"a", by norm_num [findClosestMusic, findClosestAux, dist2], rfl⟩)

/-- C6 counterexample: with a single clip whose audio is unavailable and
two paragraphs, the full run marks nothing as used (final used_music is
empty, refuting that the matched-but-unavailable id is added), and the
matcher, still seeing the empty used set, returns the very same id for
the later paragraph (refuting that it can never be matched again). -/
theorem claim6_counterexample :
    processParagraphs [("a", EmotionPoint.mk 0 0)] (fun _ => none) 60000 5000
      [ParagraphSpec.mk (EmotionPoint.mk 0 0) 0 (1/2),
        ParagraphSpec.mk (EmotionPoint.mk 0 0) (1/2) 1] 0 [] = some ([], []) ∧
    findClosestMusic (EmotionPoint.mk 0 0) [("a", EmotionPoint.mk 0 0)] [] = some "a" := by
  have hf : findClosestMusic (EmotionPoint.mk 0 0) [("a", EmotionPoint.mk 0 0)] []
      = some "a" := by
    norm_num [findClosestMusic, findClosestAux, dist2]
  refine ⟨?_, hf⟩
  rw [processParagraphs_skip_unavail _ _ _ _ _ _ _ _ _ hf rfl,
    processParagraphs_skip_unavail _ _ _ _ _ _ _ _ _ hf rfl,
    processParagraphs_nil]

/-- C6 (amended): a paragraph whose matched clip id has no loadable audio
does NOT add that id to used_clip_ids (the availability check of line 72
runs before the marking of line 76), so any later paragraph with the
same emotions is matched to the same unavailable id again. -/
theorem claim6_unavailable_not_marked (lib : List (String × EmotionPoint))
    (loader : String → Option ℕ) (total cf : ℕ) (p : ParagraphSpec)
    (rest : List ParagraphSpec) (i : ℕ) (used : List String) (m : String)
    (hm : findClosestMusic p.emotions lib used = some m) (hl : loader m = none) :
    processParagraphs lib loader total cf (p :: rest) i used =
      processParagraphs lib loader total cf rest (i + 1) used ∧
    ∀ q : ParagraphSpec, q.emotions = p.emotions →
      findClosestMusic q.emotions lib used = some m := by
  refine ⟨processParagraphs_skip_unavail _ _ _ _ _ _ _ _ _ hm hl, ?_⟩
  intro q hq
  rw [hq]
  exact hm

/-- Witness for C6 (amended) on the one-clip unavailable library. -/
theorem claim6_unavailable_not_marked_witness :
    processParagraphs [("a", EmotionPoint.mk 0 0)] (fun _ => none) 60000 5000
      [ParagraphSpec.mk (EmotionPoint.mk 0 0) 0 (1/2),
        ParagraphSpec.mk (EmotionPoint.mk 0 0) (1/2) 1] 0 [] =
      processParagraphs [("a", EmotionPoint.mk 0 0)] (fun _ => none) 60000 5000
        [ParagraphSpec.mk (EmotionPoint.mk 0 0) (1/2) 1] 1 [] ∧
    ∀ q : ParagraphSpec,
      q.emotions = (ParagraphSpec.mk (EmotionPoint.mk 0 0) 0 (1/2)).emotions →
      findClosestMusic q.emotions [("a", EmotionPoint.mk 0 0)] [] = some "a" :=
  claim6_unavailable_not_marked [("a", EmotionPoint.mk 0 0)] (fun _ => none) 60000 5000
    (ParagraphSpec.mk (EmotionPoint.mk 0 0) 0 (1/2))
    [ParagraphSpec.mk (EmotionPoint.mk 0 0) (1/2) 1] 0 [] "a"
    (by norm_num [findClosestMusic, findClosestAux, dist2]) rfl

/-- C7: the mixer of main does compute 20 * np.log10(v) for every volume
multiplier, with no rejection or special case: at the documented failing
input 0.0 the conversion is negative infinity (and NaN below zero), a
non-finite decibel gain, contradicting the design requirement quoted by
the claim. -/
theorem claim7_degenerate_volume :
    mainVolumeGains 0 (-1) = (VolumeGain.negInf, VolumeGain.nan) ∧
    volumeToDb 0 = VolumeGain.negInf := by
  constructor
  · unfold mainVolumeGains
    norm_num [volumeToDb]
  · norm_num [volumeToDb]

/-- C8: for every non-empty source buffer and target duration d at least
0, the doubling loop terminates with a buffer at least as long as d, and
the subsequent slice to d yields a buffer of length exactly d. -/
theorem claim8_loop_extend (clipLen : ℕ) (d : ℤ) (hc : 0 < clipLen) (hd : 0 ≤ d) :
    d ≤ (loopExtend clipLen d : ℤ) ∧ prepareSegment clipLen d = some d.toNat :=
  ⟨le_loopExtend clipLen d hc, prepareSegment_eq clipLen d hc hd⟩

/-- Witness for C8 on a 7 ms clip with a 100 ms target. -/
theorem claim8_loop_extend_witness :
    (100 : ℤ) ≤ (loopExtend 7 100 : ℤ) ∧ prepareSegment 7 100 = some ((100 : ℤ).toNat) :=
  claim8_loop_extend 7 100 (by norm_num) (by norm_num)

/-- C9: in every run of the paragraph loop, the used_music set only grows
(every initially used id is still in the final set), every produced
assignment uses an id that was free at the start, and no clip id appears
in two different assignments of the produced list. -/
theorem claim9_used_invariant (lib : List (String × EmotionPoint))
    (loader : String → Option ℕ) (total cf : ℕ) (paras : List ParagraphSpec) (i : ℕ)
    (used : List String) (assigns : List SegmentAssignment) (usedF : List String)
    (h : processParagraphs lib loader total cf paras i used = some (assigns, usedF)) :
    (∀ u ∈ used, u ∈ usedF) ∧ (∀ a ∈ assigns, a.id ∉ used) ∧
    (assigns.map SegmentAssignment.id).Nodup :=
  processParagraphs_used lib loader total cf paras i used assigns usedF h

/-- Witness for C9 on a concrete successful one-paragraph run. -/
theorem claim9_used_invariant_witness :
    (∀ u ∈ (["x"] : List String), u ∈ (["a", "x"] : List String)) ∧
    (∀ a ∈ [SegmentAssignment.mk "a" 30000 30000], a.id ∉ (["x"] : List String)) ∧
    (([SegmentAssignment.mk "a" 30000 30000].map SegmentAssignment.id)).Nodup :=
  claim9_used_invariant [("a", EmotionPoint.mk 0 0)] (fun _ => some 60000) 60000 5000
    [ParagraphSpec.mk (EmotionPoint.mk 0 0) 0 (1/2)] 0 ["x"]
    [SegmentAssignment.mk "a" 30000 30000] ["a", "x"]
    (by
      have hf : findClosestMusic (EmotionPoint.mk 0 0) [("a", EmotionPoint.mk 0 0)] ["x"]
          = some "a" := by
        norm_num [findClosestMusic, findClosestAux, dist2]
        decide
      have hd : plannedDuration (ParagraphSpec.mk (EmotionPoint.mk 0 0) 0 (1/2))
          0 60000 5000 = 30000 := by
        norm_num [plannedDuration, pyInt]
      have hp : prepareSegment 60000 (plannedDuration
          (ParagraphSpec.mk (EmotionPoint.mk 0 0) 0 (1/2)) 0 60000 5000) = some 30000 := by
        rw [hd, prepareSegment_eq 60000 30000 (by norm_num) (by norm_num)]
        rfl
      rw [processParagraphs_assign _ _ _ _ _ _ _ _ "a" 60000 30000 hf rfl hp,
        processParagraphs_nil]
      simp only [hd]
      rfl)

/-- C10: create_music_sequence is a pure function of the paragraph list,
the library, the loaded clip buffers and the numeric parameters; in
particular two runs whose loaders agree on every library id (identical
loaded clip buffers) return identical results, whatever the loaders do
elsewhere.  No randomness occurs in the embedded core; the random
choice of the source lives only in main's ambient-file selection,
outside create_music_sequence. -/
theorem claim10_deterministic (paras : List ParagraphSpec)
    (lib : List (String × EmotionPoint)) (loader1 loader2 : String → Option ℕ)
    (total cf fade : ℕ) (h : ∀ p ∈ lib, loader1 p.1 = loader2 p.1) :
    createMusicSequence paras lib loader1 total cf fade =
      createMusicSequence paras lib loader2 total cf fade := by
  unfold createMusicSequence
  rw [processParagraphs_congr lib loader1 loader2 total cf h paras 0 []]

/-- Witness for C10: two loaders differing outside the library produce the
same run. -/
theorem claim10_deterministic_witness :
    createMusicSequence [ParagraphSpec.mk (EmotionPoint.mk 0 0) 0 (1/2)]
      [("a", EmotionPoint.mk 0 0)] (fun s => if s = "a" then some 1000 else none)
      60000 5000 3000 =
    createMusicSequence [ParagraphSpec.mk (EmotionPoint.mk 0 0) 0 (1/2)]
      [("a", EmotionPoint.mk 0 0)] (fun s => if s = "a" then some 1000 else some 99)
      60000 5000 3000 :=
  claim10_deterministic _ _ _ _ _ _ _ (by
    intro p hp
    rw [List.mem_singleton] at hp
    subst hp
    rfl)
